import Mathlib

/-!
Verification model of the sentry-api-cli repository.

The embedding covers, faithfully to the TypeScript sources:
* the JSON value model shared by the argument bags and response payloads,
  together with JavaScript truthiness and template-literal display;
* the platform codec used by `SentryUtil.formatAsJson`
  (`JSON.stringify(data, null, 2)`) and its inverse `JSON.parse`,
  both modelled over the value type above;
* `SentryUtil` (src/unnamed/part_000): `formatAsJson`, `formatAsToon`,
  `formatResult`, the per-profile client pool (`getClient` / `clearClients`),
  and the API operations cited by the claims (`getIssue`,
  `listProjectEvents`, `updateIssue`) with their shared error handler;
* the headless dispatcher `runCommand` (src/src/commands/runner.ts) with
  `filterCliParams`, required-field validation, the post-switch result
  display, and the `clearClients` calls, where `process.exit` is modelled
  as immediate termination of the invocation.
-/

namespace SentryCLI

/-- A JSON value: the payload shape produced by `JSON.parse` on API
responses and argument strings.  Objects keep their members in source
order, matching JavaScript object iteration order for JSON-parsed data. -/
inductive Json where
  | null : Json
  | bool : Bool → Json
  | num : Int → Json
  | str : String → Json
  | arr : List Json → Json
  | obj : List (String × Json) → Json

/-- JavaScript truthiness of a JSON value (`!x` in the sources negates
this): `null`, `false`, `0` and `""` are falsy, everything else truthy. -/
def jsTruthy : Json → Bool
  | .null => false
  | .bool b => b
  | .num n => n != 0
  | .str s => s != ""
  | .arr _ => true
  | .obj _ => true

/-- An argument bag / parameter object: an ordered association list of
string keys to JSON values, as produced by `JSON.parse` on the CLI's
single JSON argument. -/
abbrev Bag : Type := List (String × Json)

/-- Ordered association lookup: first binding wins. -/
def assocGet {α : Type} : List (String × α) → String → Option α
  | [], _ => none
  | (k, v) :: rest, key => if k = key then some v else assocGet rest key

/-- Property read `bag.key` (JSON-parsed objects have unique keys, so
this is the JavaScript property lookup). -/
def bagGet (bag : Bag) (key : String) : Option Json := assocGet bag key

/-- Truthiness of `bag.key`, i.e. the value of `args.key` under `if (...)`:
an absent key reads as `undefined`, which is falsy. -/
def truthyGet (bag : Bag) (key : String) : Bool :=
  match bagGet bag key with
  | none => false
  | some v => jsTruthy v

/-! ## Decimal digits -/

/-- The character for decimal digit `n < 10`. -/
def digitChar (n : Nat) : Char := Char.ofNat (48 + n)

/-- Decimal-digit test, by code point (48–57). -/
def isDig (c : Char) : Bool := 48 ≤ c.toNat && c.toNat ≤ 57

/-- Big-endian decimal digits of `n`, fuelled so that it is structural
(hence kernel-reducible); `fuel ≥ n` suffices. -/
def natCharsF : Nat → Nat → List Char
  | 0, n => [digitChar (n % 10)]
  | fuel + 1, n =>
    if n < 10 then [digitChar n]
    else natCharsF fuel (n / 10) ++ [digitChar (n % 10)]

/-- Big-endian decimal digits of `n`. -/
def natChars (n : Nat) : List Char := natCharsF n n

/-- The characters `String(i)` produces for an integer: optional minus
sign followed by decimal digits. -/
def intChars (i : Int) : List Char :=
  if i < 0 then '-' :: natChars i.natAbs else natChars i.natAbs

/-! ## String escaping (`JSON.stringify` side) -/

/-- Lower-case hexadecimal digit for `n < 16`. -/
def hexChar (n : Nat) : Char :=
  if n < 10 then Char.ofNat (48 + n) else Char.ofNat (87 + n)

/-- How `JSON.stringify` emits one character inside a string literal:
quote and backslash get two-character escapes, the named control
characters get their short escapes, any other control character becomes
a `\u00XX` escape, and everything else is copied verbatim. -/
def escapeChar (c : Char) : List Char :=
  if c = '"' then ['\\', '"']
  else if c = '\\' then ['\\', '\\']
  else if c = '\n' then ['\\', 'n']
  else if c = '\r' then ['\\', 'r']
  else if c = '\t' then ['\\', 't']
  else if c = Char.ofNat 8 then ['\\', 'b']
  else if c = Char.ofNat 12 then ['\\', 'f']
  else if c.toNat < 32 then
    ['\\', 'u', '0', '0', hexChar (c.toNat / 16), hexChar (c.toNat % 16)]
  else [c]

/-- Escape a whole character sequence. -/
def escChars : List Char → List Char
  | [] => []
  | c :: cs => escapeChar c ++ escChars cs

/-- A rendered JSON string literal: quote, escaped body, quote. -/
def quoteChars (s : String) : List Char :=
  '"' :: (escChars s.data ++ ['"'])

/-! ## `JSON.stringify(data, null, 2)` -/

/-- `2 * d` spaces: the indentation `JSON.stringify` uses at nesting
depth `d` when called with gap argument `2`. -/
def pad (d : Nat) : List Char := List.replicate (2 * d) ' '

mutual

/-- Characters of `JSON.stringify(v, null, 2)` at nesting depth `d`:
scalars are rendered inline; a non-empty array or object opens its
bracket, puts each entry on its own line indented by `2 * (d + 1)`
spaces, and closes the bracket on a line indented by `2 * d` spaces.
Members are emitted in the order the object stores them. -/
def renderVal : Nat → Json → List Char
  | _, .null => ['n', 'u', 'l', 'l']
  | _, .bool true => ['t', 'r', 'u', 'e']
  | _, .bool false => ['f', 'a', 'l', 's', 'e']
  | _, .num n => intChars n
  | _, .str s => quoteChars s
  | _, .arr [] => ['[', ']']
  | d, .arr (x :: xs) =>
    '[' :: '\n' :: (pad (d + 1) ++ (renderVal (d + 1) x ++ (renderItems (d + 1) xs
      ++ '\n' :: (pad d ++ [']']))))
  | _, .obj [] => ['{', '}']
  | d, .obj (m :: ms) =>
    '{' :: '\n' :: (pad (d + 1) ++ (renderMember (d + 1) m ++ (renderMembers (d + 1) ms
      ++ '\n' :: (pad d ++ ['}']))))

/-- The second and later array entries: comma, newline, indentation,
entry. -/
def renderItems : Nat → List Json → List Char
  | _, [] => []
  | d, x :: xs => ',' :: '\n' :: (pad d ++ (renderVal d x ++ renderItems d xs))

/-- One object member: quoted key, colon, single space, value. -/
def renderMember : Nat → String × Json → List Char
  | d, (k, v) => quoteChars k ++ (':' :: ' ' :: renderVal d v)

/-- The second and later object members: comma, newline, indentation,
member. -/
def renderMembers : Nat → List (String × Json) → List Char
  | _, [] => []
  | d, m :: ms => ',' :: '\n' :: (pad d ++ (renderMember d m ++ renderMembers d ms))

end

/-- `JSON.stringify(v, null, 2)` as a string. -/
def jsonStringify2 (v : Json) : String := String.mk (renderVal 0 v)

/-! ## `JSON.parse`

Modelled from the spec: the platform's `JSON.parse` is not part of this
repository, so it is embedded as a recursive-descent parser of the JSON
grammar over the value model above (numbers restricted to the integers
the model carries).  Whitespace is skipped between tokens; string
escapes, including `\uXXXX`, are decoded; a trailing non-whitespace
remainder rejects the document. -/

/-- JSON insignificant whitespace. -/
def isWsC (c : Char) : Bool := c = ' ' || c = '\n' || c = '\t' || c = '\r'

/-- Skip insignificant whitespace. -/
def ws (s : List Char) : List Char := s.dropWhile isWsC

/-- Numeric value of one hexadecimal digit character. -/
def hexVal (c : Char) : Option Nat :=
  if 48 ≤ c.toNat && c.toNat ≤ 57 then some (c.toNat - 48)
  else if 97 ≤ c.toNat && c.toNat ≤ 102 then some (c.toNat - 87)
  else if 65 ≤ c.toNat && c.toNat ≤ 70 then some (c.toNat - 55)
  else none

/-- Decode a two-character escape (the character after the backslash). -/
def unescapeChar (c : Char) : Option Char :=
  if c = '"' then some '"'
  else if c = '\\' then some '\\'
  else if c = '/' then some '/'
  else if c = 'n' then some '\n'
  else if c = 'r' then some '\r'
  else if c = 't' then some '\t'
  else if c = 'b' then some (Char.ofNat 8)
  else if c = 'f' then some (Char.ofNat 12)
  else none

mutual

/-- Parse a string body after the opening quote, up to and including the
closing quote; yields the decoded characters and the remainder. -/
def pStr : List Char → Option (List Char × List Char)
  | [] => none
  | c :: r =>
    if c = '"' then some ([], r)
    else if c = '\\' then pEsc r
    else (pStr r).map fun p => (c :: p.1, p.2)

/-- Parse the tail of an escape sequence (input starts after the
backslash). -/
def pEsc : List Char → Option (List Char × List Char)
  | [] => none
  | e :: r =>
    if e = 'u' then
      match r with
      | a :: b :: c :: d :: r2 =>
        match hexVal a, hexVal b, hexVal c, hexVal d with
        | some ha, some hb, some hc, some hd =>
          (pStr r2).map fun p =>
            (Char.ofNat (((ha * 16 + hb) * 16 + hc) * 16 + hd) :: p.1, p.2)
        | _, _, _, _ => none
      | _ => none
    else
      match unescapeChar e with
      | some ch => (pStr r).map fun p => (ch :: p.1, p.2)
      | none => none

end

/-- Consume a run of decimal digits, accumulating their value onto
`acc`; stops at the first non-digit. -/
def pDigits (acc : Nat) : List Char → Nat × List Char
  | [] => (acc, [])
  | c :: r =>
    if isDig c then pDigits (acc * 10 + (c.toNat - 48)) r else (acc, c :: r)

/-- Parse an integer JSON number: optional minus sign, then at least one
digit. -/
def pNum : List Char → Option (Json × List Char)
  | [] => none
  | c :: r =>
    if c = '-' then
      match r with
      | [] => none
      | c2 :: r2 =>
        if isDig c2 then
          let p := pDigits 0 (c2 :: r2)
          some (.num (-(p.1 : Int)), p.2)
        else none
    else if isDig c then
      let p := pDigits 0 (c :: r)
      some (.num (p.1 : Int), p.2)
    else none

mutual

/-- Parse one JSON value after skipping leading whitespace.  `fuel`
decreases on every nested call, making the definition structural; any
`fuel` larger than the document's rendered length is enough. -/
def pVal : Nat → List Char → Option (Json × List Char)
  | 0, _ => none
  | fuel + 1, s =>
    match ws s with
    | [] => none
    | c :: r =>
      if c = '"' then (pStr r).map fun p => (Json.str (String.mk p.1), p.2)
      else if c = '[' then
        match ws r with
        | [] => none
        | c2 :: r2 =>
          if c2 = ']' then some (.arr [], r2)
          else (pItems fuel (c2 :: r2)).map fun p => (.arr p.1, p.2)
      else if c = '{' then
        match ws r with
        | [] => none
        | c2 :: r2 =>
          if c2 = '}' then some (.obj [], r2)
          else (pMembers fuel (c2 :: r2)).map fun p => (.obj p.1, p.2)
      else if c = 'n' then
        match r with
        | 'u' :: 'l' :: 'l' :: r2 => some (.null, r2)
        | _ => none
      else if c = 't' then
        match r with
        | 'r' :: 'u' :: 'e' :: r2 => some (.bool true, r2)
        | _ => none
      else if c = 'f' then
        match r with
        | 'a' :: 'l' :: 's' :: 'e' :: r2 => some (.bool false, r2)
        | _ => none
      else pNum (c :: r)

/-- Parse one or more comma-separated array entries and the closing
bracket. -/
def pItems : Nat → List Char → Option (List Json × List Char)
  | 0, _ => none
  | fuel + 1, s =>
    match pVal fuel s with
    | none => none
    | some (v, r) =>
      match ws r with
      | [] => none
      | c :: r2 =>
        if c = ',' then (pItems fuel r2).map fun p => (v :: p.1, p.2)
        else if c = ']' then some ([v], r2)
        else none

/-- Parse one or more comma-separated object members and the closing
brace. -/
def pMembers : Nat → List Char → Option (List (String × Json) × List Char)
  | 0, _ => none
  | fuel + 1, s =>
    match ws s with
    | [] => none
    | c :: r =>
      if c = '"' then
        match pStr r with
        | none => none
        | some (kcs, r1) =>
          match ws r1 with
          | [] => none
          | c2 :: r2 =>
            if c2 = ':' then
              match pVal fuel r2 with
              | none => none
              | some (v, r3) =>
                match ws r3 with
                | [] => none
                | c3 :: r4 =>
                  if c3 = ',' then
                    (pMembers fuel r4).map fun p =>
                      ((String.mk kcs, v) :: p.1, p.2)
                  else if c3 = '}' then some ([(String.mk kcs, v)], r4)
                  else none
            else none
      else none

end

/-- `JSON.parse`: parse a complete document; anything but whitespace
after the value is an error. -/
def jsonParse (s : String) : Option Json :=
  match pVal (s.data.length + 1) s.data with
  | none => none
  | some (v, r) => if ws r = [] then some v else none

/-! ## Template-literal display

`String(x)` / template-literal interpolation of a JSON value, used by
the error handler when a server-provided `detail` field is not a
string. -/

mutual

/-- JavaScript string conversion of a value: strings pass through,
numbers print in decimal, arrays join their element displays with
commas, plain objects display as `[object Object]`. -/
def jsDisplay : Json → String
  | .null => "null"
  | .bool true => "true"
  | .bool false => "false"
  | .num n => String.mk (intChars n)
  | .str s => s
  | .arr l => jsDisplayItems l
  | .obj _ => "[object Object]"

/-- `Array.prototype.join(",")` over element displays; a `null` element
joins as the empty string. -/
def jsDisplayItems : List Json → String
  | [] => ""
  | [Json.null] => ""
  | [x] => jsDisplay x
  | Json.null :: xs => "," ++ jsDisplayItems xs
  | x :: xs => jsDisplay x ++ ("," ++ jsDisplayItems xs)

end

/-! ## SentryUtil (src/unnamed/part_000, class `SentryUtil`) -/

/-- The uniform operation envelope (`ApiResult` in sentry-utils). -/
structure ApiResult where
  success : Bool
  result : Option String := none
  data : Option Json := none
  error : Option String := none

namespace SentryUtil

/-- `formatAsJson`: `JSON.stringify(data, null, 2)`.  The argument is
`Option Json` so that JavaScript `undefined` (`none`) is distinguished
from JSON `null`; `JSON.stringify(undefined)` is itself `undefined`. -/
def formatAsJson (data : Option Json) : Option String :=
  data.map jsonStringify2

/-- `formatAsToon`: a falsy payload (absent, `null`, `0`, `false`, `""`)
short-circuits to the empty string before the toon library's `encode`
is reached; `enc` stands for that external encoder. -/
def formatAsToon (enc : Json → String) (data : Option Json) : String :=
  match data with
  | none => ""
  | some j => if jsTruthy j then enc j else ""

/-- `formatResult`: dispatch on the format string; anything other than
`"toon"` takes the JSON branch. -/
def formatResult (enc : Json → String) (data : Option Json) (format : String) :
    Option String :=
  if format = "toon" then some (formatAsToon enc data)
  else formatAsJson data

/-- What an API call can throw, as the shared `catch` blocks see it: an
axios error carrying the response body (if one arrived) and the
library's `message`, a plain `Error`, or a non-`Error` value with its
string conversion. -/
inductive UpstreamError where
  | axiosErr : Option Json → String → UpstreamError
  | jsError : String → UpstreamError
  | nonError : String → UpstreamError

/-- `error.response?.data?.detail`: the `detail` member of the response
body, when the body is an object that has one. -/
def responseDetail : Option Json → Option Json
  | some (.obj ms) => bagGet ms "detail"
  | _ => none

/-- The error message every operation's `catch` computes:
`axios.isAxiosError(error) ? error.response?.data?.detail ||
error.message : error instanceof Error ? error.message :
String(error)`.  A falsy `detail` (absent, or present but `""`, `0`,
`false`, `null`) falls through to the library message. -/
def errorText : UpstreamError → String
  | .axiosErr body message =>
    match responseDetail body with
    | some d => if jsTruthy d then jsDisplay d else message
    | none => message
  | .jsError m => m
  | .nonError s => s

/-- One HTTP request as issued by an operation. -/
structure HttpRequest where
  method : String
  url : String
  params : Bag := []
  body : Bag := []

/-- An operation's observable outcome: its `ApiResult` and the requests
it issued. -/
structure OpOutcome where
  result : ApiResult
  requests : List HttpRequest

/-- `SentryUtil.getIssue`.  `org` is the profile's organization slug
(profile resolution lives in config-loader, outside src/); `http` is
the single `client.get` outcome: a 2xx body, or a thrown error. -/
def getIssue (org issueId : String) (format : String) (enc : Json → String)
    (http : Except UpstreamError Json) : OpOutcome :=
  { requests :=
      [{ method := "GET",
         url := "/organizations/" ++ org ++ "/issues/" ++ issueId ++ "/" }],
    result :=
      match http with
      | .ok body =>
        { success := true, data := some body,
          result := formatResult enc (some body) format }
      | .error e =>
        { success := false, error := some ("ERROR: " ++ errorText e) } }

/-- `SentryUtil.listProjectEvents`: same shape with a query-parameter
passthrough. -/
def listProjectEvents (org projectSlug : String) (params : Bag)
    (format : String) (enc : Json → String)
    (http : Except UpstreamError Json) : OpOutcome :=
  { requests :=
      [{ method := "GET",
         url := "/projects/" ++ org ++ "/" ++ projectSlug ++ "/events/",
         params := params }],
    result :=
      match http with
      | .ok body =>
        { success := true, data := some body,
          result := formatResult enc (some body) format }
      | .error e =>
        { success := false, error := some ("ERROR: " ++ errorText e) } }

/-- `SentryUtil.updateIssue`: a PUT whose success result is the fixed
confirmation string, not the formatted response body. -/
def updateIssue (org issueId : String) (data : Bag)
    (http : Except UpstreamError Json) : OpOutcome :=
  { requests :=
      [{ method := "PUT",
         url := "/organizations/" ++ org ++ "/issues/" ++ issueId ++ "/",
         body := data }],
    result :=
      match http with
      | .ok respBody =>
        { success := true, data := some respBody,
          result := some ("✅ Issue " ++ issueId ++ " updated successfully!") }
      | .error e =>
        { success := false, error := some ("ERROR: " ++ errorText e) } }

/-- The client pool: `clientPool : Map<string, AxiosInstance>` plus a
counter modelling object identity — each `axios.create` yields a handle
no earlier call produced, numbered here by `nextClient`. -/
structure SentryState where
  clientPool : List (String × Nat)
  nextClient : Nat

/-- `getClient`: return the pooled handle if the profile has one,
otherwise create a fresh handle, store it, and return it. -/
def getClient (st : SentryState) (profileName : String) : Nat × SentryState :=
  match assocGet st.clientPool profileName with
  | some client => (client, st)
  | none =>
    (st.nextClient,
     { clientPool := st.clientPool ++ [(profileName, st.nextClient)],
       nextClient := st.nextClient + 1 })

/-- `clearClients`: `this.clientPool.clear()`. -/
def clearClients (st : SentryState) : SentryState :=
  { st with clientPool := [] }

end SentryUtil

/-! ## The headless dispatcher (src/src/commands/runner.ts, `runCommand`) -/

/-- The config defaults the runner reads (`loadConfig` itself lives
outside src/). -/
structure Config where
  defaultProfile : String
  defaultFormat : String

/-- A call to one of the utils-layer operation functions, as the runner
issues it: operation name, the `profile` argument, the positional path
arguments taken straight from the bag, the filtered parameter object
(for operations that take one), and the `format` argument (for
operations that take one). -/
structure ApiCall where
  op : String
  profile : Json
  pathArgs : List Json
  params : Option Bag
  format : Option Json

/-- `args.profile || config.defaultProfile` (and likewise for
`format`): the bag's value when truthy, else the config default. -/
def jsOr (v : Option Json) (dflt : String) : Json :=
  match v with
  | some x => if jsTruthy x then x else .str dflt
  | none => .str dflt

/-- The value `args.key` passed positionally to an operation.  Callers
only read it after the truthiness check, so the key is present there;
the `.null` default stands in for `undefined`. -/
def bagGetD (args : Bag) (key : String) : Json :=
  match bagGet args key with
  | some v => v
  | none => .null

/-- The CLI-only keys `filterCliParams` removes by rest-destructuring. -/
def cliOnlyKeys : List String :=
  ["profile", "format", "projectSlug", "issueId", "eventId", "tagKey"]

/-- `filterCliParams`: drop the CLI-only keys, keep every other binding
in order (object rest-destructuring on a JSON-parsed bag). -/
def filterCliParams (params : Bag) : Bag :=
  params.filter fun kv => !(cliOnlyKeys.contains kv.1)

/-- What the switch in `runCommand` decides before any output is
written: a validation failure (printed, then `process.exit(1)`), an
unknown command, or an operation call. -/
inductive DispatchStep where
  | validationError : String → DispatchStep
  | unknownCommand : DispatchStep
  | call : ApiCall → DispatchStep

/-- `args.profile || config.defaultProfile`. -/
def argProfile (config : Config) (args : Bag) : Json :=
  jsOr (bagGet args "profile") config.defaultProfile

/-- `args.format || config.defaultFormat`. -/
def argFormat (config : Config) (args : Bag) : Json :=
  jsOr (bagGet args "format") config.defaultFormat

/-- The `switch (command)` of `runCommand`: per-command required-field
truthiness checks with their exact error strings, and the operation
invocation with filtered parameters. -/
def dispatch (config : Config) (command : String) (args : Bag) : DispatchStep :=
  match command with
  | "list-project-events" =>
    if !truthyGet args "projectSlug" then
      .validationError "ERROR: \"projectSlug\" parameter is required"
    else
      .call ⟨"listProjectEvents", argProfile config args, [bagGetD args "projectSlug"],
        some (filterCliParams args), some (argFormat config args)⟩
  | "list-project-issues" =>
    if !truthyGet args "projectSlug" then
      .validationError "ERROR: \"projectSlug\" parameter is required"
    else
      .call ⟨"listProjectIssues", argProfile config args, [bagGetD args "projectSlug"],
        some (filterCliParams args), some (argFormat config args)⟩
  | "list-org-issues" =>
    .call ⟨"listOrgIssues", argProfile config args, [], some (filterCliParams args), some (argFormat config args)⟩
  | "get-issue" =>
    if !truthyGet args "issueId" then
      .validationError "ERROR: \"issueId\" parameter is required"
    else
      .call ⟨"getIssue", argProfile config args, [bagGetD args "issueId"], none, some (argFormat config args)⟩
  | "update-issue" =>
    if !truthyGet args "issueId" then
      .validationError "ERROR: \"issueId\" parameter is required"
    else
      .call ⟨"updateIssue", argProfile config args, [bagGetD args "issueId"],
        some (filterCliParams args), none⟩
  | "list-issue-events" =>
    if !truthyGet args "issueId" then
      .validationError "ERROR: \"issueId\" parameter is required"
    else
      .call ⟨"listIssueEvents", argProfile config args, [bagGetD args "issueId"],
        some (filterCliParams args), some (argFormat config args)⟩
  | "get-event" =>
    if !truthyGet args "projectSlug" || !truthyGet args "eventId" then
      .validationError "ERROR: \"projectSlug\" and \"eventId\" parameters are required"
    else
      .call ⟨"getEvent", argProfile config args,
        [bagGetD args "projectSlug", bagGetD args "eventId"], none, some (argFormat config args)⟩
  | "get-issue-event" =>
    if !truthyGet args "issueId" || !truthyGet args "eventId" then
      .validationError "ERROR: \"issueId\" and \"eventId\" parameters are required"
    else
      .call ⟨"getIssueEvent", argProfile config args,
        [bagGetD args "issueId", bagGetD args "eventId"], none, some (argFormat config args)⟩
  | "get-tag-details" =>
    if !truthyGet args "issueId" || !truthyGet args "tagKey" then
      .validationError "ERROR: \"issueId\" and \"tagKey\" parameters are required"
    else
      .call ⟨"getTagDetails", argProfile config args,
        [bagGetD args "issueId", bagGetD args "tagKey"],
        some (filterCliParams args), some (argFormat config args)⟩
  | "list-tag-values" =>
    if !truthyGet args "issueId" || !truthyGet args "tagKey" then
      .validationError "ERROR: \"issueId\" and \"tagKey\" parameters are required"
    else
      .call ⟨"listTagValues", argProfile config args,
        [bagGetD args "issueId", bagGetD args "tagKey"],
        some (filterCliParams args), some (argFormat config args)⟩
  | "list-issue-hashes" =>
    if !truthyGet args "issueId" then
      .validationError "ERROR: \"issueId\" parameter is required"
    else
      .call ⟨"listIssueHashes", argProfile config args, [bagGetD args "issueId"], none, some (argFormat config args)⟩
  | "debug-source-maps" =>
    if !truthyGet args "projectSlug" || !truthyGet args "eventId" then
      .validationError "ERROR: \"projectSlug\" and \"eventId\" parameters are required"
    else
      .call ⟨"debugSourceMaps", argProfile config args,
        [bagGetD args "projectSlug", bagGetD args "eventId"],
        some (filterCliParams args), some (argFormat config args)⟩
  | "test-connection" =>
    .call ⟨"testConnection", argProfile config args, [], none, none⟩
  | _ => .unknownCommand

/-- What reaches the runner's top-level `catch`: an `Error` (whose
`message` is printed) or any other thrown value (whose string
conversion is printed). -/
inductive Thrown where
  | jsError : String → Thrown
  | nonError : String → Thrown

/-- The message the catch block extracts from a thrown value. -/
def thrownText : Thrown → String
  | .jsError m => m
  | .nonError s => s

/-- `console.log`/`console.error` of a possibly-`undefined` field. -/
def optString : Option String → String
  | some s => s
  | none => "undefined"

/-- Everything one `runCommand` invocation observably does:
console output, the process exit status, the operation calls made, and
whether `clearClients()` ran before the invocation ended. -/
structure RunOutcome where
  stdout : List String
  stderr : List String
  exitCode : Nat
  apiCalls : List ApiCall
  clientsCleared : Bool

/-- `runCommand` in headless mode, with `process.exit` modelled as
immediate termination and the operation layer abstracted as an oracle
`api` (each dispatched call is made at most once, so one response per
call describes any upstream).  Faithful control flow of
runner.ts lines 56–175:
* a validation failure or unknown command prints to stderr and exits 1
  before any operation runs, so `clearClients` is not reached;
* a successful result prints `result.result` and then reaches the
  `clearClients()` on the success path;
* a failed result prints `result.error` and calls `process.exit(1)`
  *before* the `clearClients()` that follows the display block, so the
  pool is not cleared on that path;
* a thrown error is caught, printed, and `clearClients()` runs before
  `process.exit(1)`. -/
def runCommand (config : Config) (api : ApiCall → Except Thrown ApiResult)
    (command : String) (args : Bag) : RunOutcome :=
  match dispatch config command args with
  | .validationError msg =>
    { stdout := [], stderr := [msg], exitCode := 1, apiCalls := [],
      clientsCleared := false }
  | .unknownCommand =>
    { stdout := [], stderr := ["Unknown command: " ++ command], exitCode := 1,
      apiCalls := [], clientsCleared := false }
  | .call c =>
    match api c with
    | .ok r =>
      if r.success then
        { stdout := [optString r.result], stderr := [], exitCode := 0,
          apiCalls := [c], clientsCleared := true }
      else
        { stdout := [], stderr := [optString r.error], exitCode := 1,
          apiCalls := [c], clientsCleared := false }
    | .error t =>
      { stdout := [], stderr := ["Error executing command: " ++ thrownText t],
        exitCode := 1, apiCalls := [c], clientsCleared := true }

/-- The required fields the switch checks, per command. -/
def requiredFields : String → List String
  | "list-project-events" => ["projectSlug"]
  | "list-project-issues" => ["projectSlug"]
  | "get-issue" => ["issueId"]
  | "update-issue" => ["issueId"]
  | "list-issue-events" => ["issueId"]
  | "get-event" => ["projectSlug", "eventId"]
  | "get-issue-event" => ["issueId", "eventId"]
  | "get-tag-details" => ["issueId", "tagKey"]
  | "list-tag-values" => ["issueId", "tagKey"]
  | "list-issue-hashes" => ["issueId"]
  | "debug-source-maps" => ["projectSlug", "eventId"]
  | _ => []

/-- The exact validation message each command prints when a required
field is missing or falsy. -/
def requiredMsg : String → String
  | "list-project-events" => "ERROR: \"projectSlug\" parameter is required"
  | "list-project-issues" => "ERROR: \"projectSlug\" parameter is required"
  | "get-issue" => "ERROR: \"issueId\" parameter is required"
  | "update-issue" => "ERROR: \"issueId\" parameter is required"
  | "list-issue-events" => "ERROR: \"issueId\" parameter is required"
  | "get-event" => "ERROR: \"projectSlug\" and \"eventId\" parameters are required"
  | "get-issue-event" => "ERROR: \"issueId\" and \"eventId\" parameters are required"
  | "get-tag-details" => "ERROR: \"issueId\" and \"tagKey\" parameters are required"
  | "list-tag-values" => "ERROR: \"issueId\" and \"tagKey\" parameters are required"
  | "list-issue-hashes" => "ERROR: \"issueId\" parameter is required"
  | "debug-source-maps" => "ERROR: \"projectSlug\" and \"eventId\" parameters are required"
  | _ => ""

/-- The outcome of every validation failure: the message on stderr,
exit status 1, no operation invoked, pool untouched. -/
def validationOutcome (command : String) : RunOutcome :=
  { stdout := [], stderr := [requiredMsg command], exitCode := 1,
    apiCalls := [], clientsCleared := false }

/-- A remainder that cannot extend a rendered number: empty, or headed
by a non-digit.  Every delimiter the renderer emits after a value
(comma, newline, closing bracket, end of input) qualifies. -/
def digitSafe : List Char → Bool
  | [] => true
  | c :: _ => !(isDig c)

/-- Remove every binding of `key` (the bag with the field omitted). -/
def removeKey (bag : Bag) (key : String) : Bag :=
  bag.filter fun kv => kv.1 != key

/-- Pool handles were all created by earlier `axios.create` calls:
every stored handle number is below the freshness counter. -/
def poolInv (st : SentryUtil.SentryState) : Prop :=
  ∀ p c, assocGet st.clientPool p = some c → c < st.nextClient

/-- The pool's profile names are pairwise distinct. -/
def poolKeysNodup (st : SentryUtil.SentryState) : Prop :=
  (st.clientPool.map Prod.fst).Nodup

end SentryCLI

/-! # Theorems -/

namespace SentryCLI

/-! ## Formatter facts (C8, C9) -/

/-- C8: rendering absent (`undefined`) or `null` data with format
`"toon"` returns the empty string without invoking the toon encoder
(the result is the same for every encoder `enc`, so no encoding call
can have contributed), and rendering `null` with format `"json"`
returns the literal string `"null"`. -/
theorem C8_null_rendering :
    (∀ enc, SentryUtil.formatResult enc none "toon" = some "") ∧
    (∀ enc, SentryUtil.formatResult enc (some .null) "toon" = some "") ∧
    (∀ enc, SentryUtil.formatResult enc (some .null) "json" = some "null") := by
  refine ⟨fun enc => ?_, fun enc => ?_, fun enc => ?_⟩
  · simp [SentryUtil.formatResult, SentryUtil.formatAsToon]
  · simp [SentryUtil.formatResult, SentryUtil.formatAsToon, jsTruthy]
  · have h1 : renderVal 0 Json.null = ['n', 'u', 'l', 'l'] := by simp [renderVal]
    have h2 : jsonStringify2 Json.null = "null" := by
      simp only [jsonStringify2, h1]
    simp [SentryUtil.formatResult, SentryUtil.formatAsJson, h2]

/-- C9: the falsy-payload short-circuit of `formatAsToon` applies to
every falsy value, not only `null`/absent: the number `0`, the boolean
`false`, and the empty string each render as `""` for every encoder
`enc`, rather than through the toon encoding. -/
theorem C9_toon_falsy_short_circuit :
    ∀ enc, SentryUtil.formatAsToon enc (some (.num 0)) = "" ∧
      SentryUtil.formatAsToon enc (some (.bool false)) = "" ∧
      SentryUtil.formatAsToon enc (some (.str "")) = "" := by
  intro enc
  refine ⟨?_, ?_, ?_⟩ <;> simp [SentryUtil.formatAsToon, jsTruthy]

/-! ## update-issue (C6) -/

/-- C6: a 2xx response to `updateIssue` yields a successful result
whose message is the fixed confirmation string, with the issue id and
the words "updated successfully" embedded in it; the message does not
depend on the response body (same string for every body). -/
theorem C6_updateIssue_fixed_confirmation (org issueId : String) (data : Bag)
    (body : Json) :
    (SentryUtil.updateIssue org issueId data (.ok body)).result.success = true ∧
    (SentryUtil.updateIssue org issueId data (.ok body)).result.result
      = some ("✅ Issue " ++ issueId ++ " updated successfully!") ∧
    (∀ body2 : Json,
      (SentryUtil.updateIssue org issueId data (.ok body2)).result.result
        = (SentryUtil.updateIssue org issueId data (.ok body)).result.result) ∧
    (∃ pre post : String,
      "✅ Issue " ++ issueId ++ " updated successfully!"
        = pre ++ ("updated successfully" ++ post)) ∧
    (∃ pre post : String,
      "✅ Issue " ++ issueId ++ " updated successfully!"
        = pre ++ (issueId ++ post)) := by
  refine ⟨rfl, rfl, fun body2 => rfl, ?_, ?_⟩
  · refine ⟨"✅ Issue " ++ issueId ++ " ", "!", ?_⟩
    have h : (" updated successfully!" : String)
        = " " ++ ("updated successfully" ++ "!") := by decide
    calc "✅ Issue " ++ issueId ++ " updated successfully!"
        = ("✅ Issue " ++ issueId) ++ (" " ++ ("updated successfully" ++ "!")) := by
          rw [← h]
      _ = ("✅ Issue " ++ issueId ++ " ") ++ ("updated successfully" ++ "!") :=
          (String.append_assoc ("✅ Issue " ++ issueId) " "
            ("updated successfully" ++ "!")).symm
  · exact ⟨"✅ Issue ", " updated successfully!", String.append_assoc ..⟩

/-! ## Parameter filtering (C3) -/

theorem assocGet_filter_none {α : Type} (p : String × α → Bool) (k : String)
    (l : List (String × α)) (hk : ∀ v, p (k, v) = false) :
    assocGet (l.filter p) k = none := by
  induction l with
  | nil => rfl
  | cons kv rest ih =>
    obtain ⟨k0, v0⟩ := kv
    by_cases hp : p (k0, v0) = true
    · rw [List.filter_cons_of_pos hp]
      have hne : ¬ k0 = k := fun h => by subst h; rw [hk v0] at hp; cases hp
      simp [assocGet, hne, ih]
    · rw [List.filter_cons_of_neg (by simpa using hp)]
      exact ih

theorem assocGet_filter_keep {α : Type} (p : String × α → Bool) (k : String)
    (l : List (String × α)) (hk : ∀ v, p (k, v) = true) :
    assocGet (l.filter p) k = assocGet l k := by
  induction l with
  | nil => rfl
  | cons kv rest ih =>
    obtain ⟨k0, v0⟩ := kv
    by_cases he : k0 = k
    · subst he
      rw [List.filter_cons_of_pos (hk v0)]
      simp [assocGet]
    · by_cases hp : p (k0, v0) = true
      · rw [List.filter_cons_of_pos hp]
        simp [assocGet, he, ih]
      · rw [List.filter_cons_of_neg (by simpa using hp)]
        rw [ih]
        simp [assocGet, he]

/-- Every `.call` step the dispatcher emits forwards either no parameter
object at all or exactly `filterCliParams args`. -/
theorem dispatch_params_filtered (config : Config) (command : String)
    (args : Bag) (c : ApiCall) (h : dispatch config command args = .call c) :
    c.params = none ∨ c.params = some (filterCliParams args) := by
  unfold dispatch at h
  split at h <;> (try split at h) <;> (cases h <;> simp)

/-- C3: for every argument bag — in particular any bag containing
denylisted keys — the parameter object the dispatcher forwards
upstream is `filterCliParams args`, in which no denylisted key
(`profile`, `format`, `projectSlug`, `issueId`, `eventId`, `tagKey`)
can be looked up, while every other key looks up to exactly its value
in the original bag and every non-denylisted binding survives. -/
theorem C3_denylist_stripped (args : Bag) :
    (∀ k, k ∈ cliOnlyKeys → bagGet (filterCliParams args) k = none) ∧
    (∀ k, k ∉ cliOnlyKeys → bagGet (filterCliParams args) k = bagGet args k) ∧
    (∀ kv, kv ∈ args → kv.1 ∉ cliOnlyKeys → kv ∈ filterCliParams args) ∧
    (∀ config command c, dispatch config command args = .call c →
      c.params = none ∨ c.params = some (filterCliParams args)) := by
  refine ⟨fun k hk => ?_, fun k hk => ?_, fun kv hkv hk => ?_, ?_⟩
  · refine assocGet_filter_none _ _ _ fun v => ?_
    have hc : cliOnlyKeys.contains k = true := List.elem_eq_true_of_mem hk
    simp only [hc, Bool.not_true]
  · refine assocGet_filter_keep _ _ _ fun v => ?_
    have hc : cliOnlyKeys.contains k = false := by
      rw [Bool.eq_false_iff]
      intro hcc
      exact hk (List.mem_of_elem_eq_true hcc)
    simp only [hc, Bool.not_false]
  · refine List.mem_filter.mpr ⟨hkv, ?_⟩
    have hc : cliOnlyKeys.contains kv.1 = false := by
      rw [Bool.eq_false_iff]
      intro hcc
      exact hk (List.mem_of_elem_eq_true hcc)
    simp only [hc, Bool.not_false]
  · exact fun config command c h => dispatch_params_filtered config command args c h

/-- Witness for C3 on a concrete bag: the denylisted `profile` key is
gone from the forwarded parameters while `query` survives unchanged. -/
theorem C3_denylist_stripped_witness :
    bagGet (filterCliParams [("profile", Json.str "p"), ("query", Json.str "q")])
      "profile" = none ∧
    bagGet (filterCliParams [("profile", Json.str "p"), ("query", Json.str "q")])
      "query"
      = bagGet [("profile", Json.str "p"), ("query", Json.str "q")] "query" := by
  have h := C3_denylist_stripped [("profile", Json.str "p"), ("query", Json.str "q")]
  exact ⟨h.1 "profile" (by decide), h.2.1 "query" (by decide)⟩

/-! ## Client pool (C7) -/

theorem assocGet_append_none {α : Type} (l m : List (String × α)) (k : String)
    (h : assocGet l k = none) : assocGet (l ++ m) k = assocGet m k := by
  induction l with
  | nil => rfl
  | cons kv rest ih =>
    obtain ⟨k0, v0⟩ := kv
    by_cases he : k0 = k
    · simp [assocGet, he] at h
    · have h2 : assocGet rest k = none := by simpa [assocGet, he] using h
      rw [List.cons_append]
      simpa [assocGet, he] using ih h2

theorem assocGet_none_not_mem_keys {α : Type} (l : List (String × α)) (k : String)
    (h : assocGet l k = none) : k ∉ l.map Prod.fst := by
  induction l with
  | nil => simp
  | cons kv rest ih =>
    obtain ⟨k0, v0⟩ := kv
    by_cases he : k0 = k
    · simp [assocGet, he] at h
    · simp only [assocGet, he, if_false] at h
      simp only [List.map_cons, List.mem_cons]
      rintro (h1 | h2)
      · exact he h1.symm
      · exact ih h h2

/-- C7: the pool caches one handle per profile: (1) two consecutive
`getClient` lookups for the same profile name return the identical
handle; (2) after `clearClients`, the next lookup builds a handle
distinct from the earlier one (`axios.create` runs again); (3) a pool
with pairwise-distinct profile names keeps them pairwise distinct
through `getClient` and `clearClients`, so no name ever maps to more
than one handle. -/
theorem C7_client_pool (st : SentryUtil.SentryState) (p : String) :
    ((SentryUtil.getClient (SentryUtil.getClient st p).2 p).1
      = (SentryUtil.getClient st p).1) ∧
    (poolInv st →
      (SentryUtil.getClient
        (SentryUtil.clearClients (SentryUtil.getClient st p).2) p).1
        ≠ (SentryUtil.getClient st p).1) ∧
    (poolKeysNodup st →
      poolKeysNodup (SentryUtil.getClient st p).2 ∧
      poolKeysNodup (SentryUtil.clearClients st) ∧
      ∀ q, ((SentryUtil.getClient st p).2.clientPool.map Prod.fst).count q ≤ 1) := by
  refine ⟨?_, ?_, ?_⟩
  · cases h : assocGet st.clientPool p with
    | some c => simp [SentryUtil.getClient, h]
    | none =>
      have h2 : assocGet (st.clientPool ++ [(p, st.nextClient)]) p
          = some st.nextClient := by
        rw [assocGet_append_none _ _ _ h]
        simp [assocGet]
      simp [SentryUtil.getClient, h, h2]
  · intro hinv
    cases h : assocGet st.clientPool p with
    | some c =>
      have hc : c < st.nextClient := hinv p c h
      simp only [SentryUtil.getClient, h, SentryUtil.clearClients, assocGet]
      omega
    | none =>
      simp only [SentryUtil.getClient, h, SentryUtil.clearClients, assocGet]
      omega
  · intro hnd
    have hnd2 : poolKeysNodup (SentryUtil.getClient st p).2 := by
      cases h : assocGet st.clientPool p with
      | some c => simpa [SentryUtil.getClient, h] using hnd
      | none =>
        have hp : p ∉ st.clientPool.map Prod.fst := assocGet_none_not_mem_keys _ _ h
        simp only [SentryUtil.getClient, h, poolKeysNodup, List.map_append,
          List.map_cons, List.map_nil]
        rw [List.nodup_append]
        refine ⟨hnd, List.nodup_singleton _, ?_⟩
        intro a ha hb
        rw [List.mem_singleton] at hb
        subst hb
        exact hp ha
    refine ⟨hnd2, ?_, fun q => List.nodup_iff_count_le_one.mp hnd2 q⟩
    simp [poolKeysNodup, SentryUtil.clearClients]

/-- Witness for C7 at a concrete state: the empty pool with counter 0
and profile `"prod"` satisfies both invariants, two lookups agree, and
a cleared pool yields a different handle. -/
theorem C7_client_pool_witness :
    ((SentryUtil.getClient (SentryUtil.getClient ⟨[], 0⟩ "prod").2 "prod").1
      = (SentryUtil.getClient ⟨[], 0⟩ "prod").1) ∧
    ((SentryUtil.getClient
        (SentryUtil.clearClients (SentryUtil.getClient ⟨[], 0⟩ "prod").2) "prod").1
      ≠ (SentryUtil.getClient ⟨[], 0⟩ "prod").1) := by
  have h := C7_client_pool ⟨[], 0⟩ "prod"
  refine ⟨h.1, h.2.1 ?_⟩
  intro q c hc
  simp [assocGet] at hc

/-! ## Failure semantics of the operations (C4) -/

/-- C4: any thrown transport-level or non-2xx error turns into a result
with `success = false` and an `ERROR: `-prefixed message chosen by
priority — the response body's truthy `detail` first, otherwise the
axios library message, otherwise the plain `Error` message, otherwise
the stringified thrown value — and the operation issues exactly one
request, so a failed call is never retried.  Stated for the cited
`getIssue` and `listProjectEvents`, whose `catch` blocks are the shared
handler shape. -/
theorem C4_failure_no_retry (org issueId projectSlug : String) (params : Bag)
    (fmt : String) (enc : Json → String) (e : SentryUtil.UpstreamError) :
    ((SentryUtil.getIssue org issueId fmt enc (.error e)).result.success = false ∧
     (SentryUtil.getIssue org issueId fmt enc (.error e)).result.error
       = some ("ERROR: " ++ SentryUtil.errorText e) ∧
     (SentryUtil.getIssue org issueId fmt enc (.error e)).requests.length = 1) ∧
    ((SentryUtil.listProjectEvents org projectSlug params fmt enc
        (.error e)).result.success = false ∧
     (SentryUtil.listProjectEvents org projectSlug params fmt enc
        (.error e)).result.error = some ("ERROR: " ++ SentryUtil.errorText e) ∧
     (SentryUtil.listProjectEvents org projectSlug params fmt enc
        (.error e)).requests.length = 1) ∧
    (∀ body m d, SentryUtil.responseDetail body = some d → jsTruthy d = true →
      SentryUtil.errorText (.axiosErr body m) = jsDisplay d) ∧
    (∀ body m, SentryUtil.responseDetail body = none →
      SentryUtil.errorText (.axiosErr body m) = m) ∧
    (∀ m, SentryUtil.errorText (.jsError m) = m) ∧
    (∀ s, SentryUtil.errorText (.nonError s) = s) := by
  refine ⟨⟨rfl, rfl, rfl⟩, ⟨rfl, rfl, rfl⟩, ?_, ?_, fun m => rfl, fun s => rfl⟩
  · intro body m d hd ht
    simp [SentryUtil.errorText, hd, ht]
  · intro body m hd
    simp [SentryUtil.errorText, hd]

/-- Witness for C4 at a concrete 404: body `{"detail": "Issue not
found"}`, so the error string is `ERROR: Issue not found` and exactly
one request was issued. -/
theorem C4_failure_no_retry_witness :
    (SentryUtil.getIssue "org" "123" "json" (fun _ => "")
      (.error (.axiosErr (some (.obj [("detail", .str "Issue not found")]))
        "Request failed with status code 404"))).result.error
      = some "ERROR: Issue not found" ∧
    (SentryUtil.getIssue "org" "123" "json" (fun _ => "")
      (.error (.axiosErr (some (.obj [("detail", .str "Issue not found")]))
        "Request failed with status code 404"))).requests.length = 1 := by
  have h := C4_failure_no_retry "org" "123" "p" [] "json" (fun _ => "")
    (.axiosErr (some (.obj [("detail", .str "Issue not found")]))
      "Request failed with status code 404")
  have hd : SentryUtil.responseDetail
      (some (.obj [("detail", .str "Issue not found")]))
      = some (.str "Issue not found") := by
    simp [SentryUtil.responseDetail, bagGet, assocGet]
  have ht : SentryUtil.errorText
      (.axiosErr (some (.obj [("detail", .str "Issue not found")]))
        "Request failed with status code 404") = "Issue not found" :=
    h.2.2.1 _ _ _ hd (by simp [jsTruthy])
  refine ⟨?_, h.1.2.2⟩
  rw [h.1.2.1, ht]
  decide

/-! ## Required-field validation (C2, C10) and cache clearing (C1) -/

/-- A required field whose truthiness check fails sends the switch to
its `validationError` branch with the command's exact message. -/
theorem dispatch_required_falsy (config : Config) (command : String)
    (args : Bag) (f : String) (hf : f ∈ requiredFields command)
    (hfalsy : truthyGet args f = false) :
    dispatch config command args = .validationError (requiredMsg command) := by
  unfold requiredFields at hf
  split at hf
  all_goals simp only [List.mem_cons, List.mem_singleton, List.not_mem_nil,
    or_false] at hf
  all_goals first
    | (obtain rfl := hf
       simp [dispatch, requiredMsg, hfalsy])
    | (obtain rfl | rfl := hf <;> simp [dispatch, requiredMsg, hfalsy])

/-- C2 as stated is refuted at `get-event`: with `projectSlug` supplied
and `eventId` missing, the printed message is the combined
`ERROR: "projectSlug" and "eventId" parameters are required`, which is
not the claimed `ERROR: "<field>" parameter is required` template for
either field. -/
theorem C2_counterexample :
    (runCommand ⟨"default", "json"⟩ (fun _ => .ok { success := true })
      "get-event" [("projectSlug", Json.str "p")]).stderr
      = ["ERROR: \"projectSlug\" and \"eventId\" parameters are required"] ∧
    ("ERROR: \"projectSlug\" and \"eventId\" parameters are required" : String)
      ≠ "ERROR: \"eventId\" parameter is required" ∧
    ("ERROR: \"projectSlug\" and \"eventId\" parameters are required" : String)
      ≠ "ERROR: \"projectSlug\" parameter is required" := by
  refine ⟨?_, by decide, by decide⟩
  decide

/-- C2 (amended): a missing required field makes `runCommand` print the
command's fixed validation message — which always names the missing
field in quotes, and equals `ERROR: "<field>" parameter is required`
exactly for the commands with a single required field (the commands
with two required fields print the combined
`ERROR: "<f1>" and "<f2>" parameters are required` instead) — then
terminate with status 1 without invoking any operation. -/
theorem C2_amended_required_validation (config : Config)
    (api : ApiCall → Except Thrown ApiResult) (command : String) (args : Bag)
    (f : String) (hf : f ∈ requiredFields command)
    (hmiss : bagGet args f = none) :
    runCommand config api command args = validationOutcome command ∧
    (requiredFields command = [f] →
      requiredMsg command = "ERROR: \"" ++ f ++ "\" parameter is required") ∧
    (∃ pre post, requiredMsg command = pre ++ (("\"" ++ (f ++ "\"")) ++ post)) := by
  have hfalsy : truthyGet args f = false := by simp [truthyGet, hmiss]
  refine ⟨?_, ?_, ?_⟩
  · rw [runCommand, dispatch_required_falsy config command args f hf hfalsy]
    rfl
  · intro hyp
    unfold requiredFields at hyp
    split at hyp
    all_goals simp at hyp
    all_goals (cases hyp; decide)
  · unfold requiredFields at hf
    split at hf
    all_goals simp only [List.mem_cons, List.mem_singleton, List.not_mem_nil,
      or_false] at hf
    all_goals first
      | (obtain rfl := hf)
      | (obtain rfl | rfl := hf)
    all_goals first
      | exact ⟨"ERROR: ", " parameter is required", by decide⟩
      | exact ⟨"ERROR: ", " and \"eventId\" parameters are required", by decide⟩
      | exact ⟨"ERROR: ", " and \"tagKey\" parameters are required", by decide⟩
      | exact ⟨"ERROR: \"projectSlug\" and ", " parameters are required", by decide⟩
      | exact ⟨"ERROR: \"issueId\" and ", " parameters are required", by decide⟩

/-- Witness for the amended C2: `get-issue` with an empty bag prints
its validation message and makes no call. -/
theorem C2_amended_required_validation_witness :
    runCommand ⟨"default", "json"⟩ (fun _ => .ok { success := true })
      "get-issue" [] = validationOutcome "get-issue" :=
  (C2_amended_required_validation ⟨"default", "json"⟩
    (fun _ => .ok { success := true }) "get-issue" [] "issueId"
    (by decide) rfl).1

/-- C10: a required field that is present but falsy (the empty string,
`0`, `false`, or `null`) takes exactly the validation path that a
missing field takes: same message, same exit status 1, no operation
invoked — and the outcome coincides with the run on the bag with the
field removed. -/
theorem C10_falsy_required_like_missing (config : Config)
    (api : ApiCall → Except Thrown ApiResult) (command : String) (args : Bag)
    (f : String) (v : Json) (hf : f ∈ requiredFields command)
    (hv : bagGet args f = some v) (hfalsy : jsTruthy v = false) :
    runCommand config api command args = validationOutcome command ∧
    runCommand config api command (removeKey args f) = validationOutcome command := by
  have h1 : truthyGet args f = false := by simp [truthyGet, hv, hfalsy]
  have hrm : bagGet (removeKey args f) f = none := by
    refine assocGet_filter_none _ _ _ fun w => ?_
    simp
  have h2 : truthyGet (removeKey args f) f = false := by
    simp [truthyGet, hrm]
  constructor
  · rw [runCommand, dispatch_required_falsy config command args f hf h1]
    rfl
  · rw [runCommand, dispatch_required_falsy config command (removeKey args f) f hf h2]
    rfl

/-- Witness for C10: `get-issue` with `issueId` present as the empty
string validates exactly like a missing `issueId`. -/
theorem C10_falsy_required_like_missing_witness :
    runCommand ⟨"default", "json"⟩ (fun _ => .ok { success := true })
      "get-issue" [("issueId", Json.str "")] = validationOutcome "get-issue" :=
  (C10_falsy_required_like_missing ⟨"default", "json"⟩
    (fun _ => .ok { success := true }) "get-issue" [("issueId", Json.str "")]
    "issueId" (Json.str "") (by decide) rfl rfl).1

/-- C1 as stated is refuted on the API-error-result path: a dispatched
`get-issue` whose operation returns `success = false` prints the error
and exits 1 before the `clearClients()` call after the display block is
reached, so the pool is not cleared even though an operation ran. -/
theorem C1_counterexample :
    ((runCommand ⟨"default", "json"⟩
        (fun _ => .ok { success := false, error := some "ERROR: Issue not found" })
        "get-issue" [("issueId", Json.str "123")]).clientsCleared = false) ∧
    ((runCommand ⟨"default", "json"⟩
        (fun _ => .ok { success := false, error := some "ERROR: Issue not found" })
        "get-issue" [("issueId", Json.str "123")]).exitCode = 1) ∧
    ((runCommand ⟨"default", "json"⟩
        (fun _ => .ok { success := false, error := some "ERROR: Issue not found" })
        "get-issue" [("issueId", Json.str "123")]).apiCalls.length = 1) :=
  ⟨rfl, rfl, rfl⟩

/-- C1 (amended): for any invocation whose dispatch reaches an
operation, the client cache is cleared before the invocation ends on
the success path and on the caught-exception path, but *not* on the
API-error-result path, where `process.exit(1)` runs first. -/
theorem C1_amended_clear_paths (config : Config) (command : String)
    (args : Bag) (r : ApiResult) (t : Thrown)
    (hc : ∃ c, dispatch config command args = DispatchStep.call c) :
    (r.success = true →
      (runCommand config (fun _ => .ok r) command args).clientsCleared = true ∧
      (runCommand config (fun _ => .ok r) command args).exitCode = 0) ∧
    (r.success = false →
      (runCommand config (fun _ => .ok r) command args).clientsCleared = false ∧
      (runCommand config (fun _ => .ok r) command args).exitCode = 1) ∧
    ((runCommand config (fun _ => .error t) command args).clientsCleared = true ∧
     (runCommand config (fun _ => .error t) command args).exitCode = 1) := by
  obtain ⟨c, hcall⟩ := hc
  refine ⟨fun hs => ?_, fun hs => ?_, ?_⟩ <;> simp [runCommand, hcall]
  · simp [hs]
  · simp [hs]

/-- Witness for the amended C1 at `test-connection`: cleared on
success, not cleared on an error result, cleared on a thrown error. -/
theorem C1_amended_clear_paths_witness :
    (runCommand ⟨"default", "json"⟩
      (fun _ => .ok { success := true, result := some "ok" })
      "test-connection" []).clientsCleared = true ∧
    (runCommand ⟨"default", "json"⟩
      (fun _ => .ok { success := false, error := some "e" })
      "test-connection" []).clientsCleared = false ∧
    (runCommand ⟨"default", "json"⟩ (fun _ => .error (.jsError "boom"))
      "test-connection" []).clientsCleared = true := by
  have h1 := C1_amended_clear_paths ⟨"default", "json"⟩ "test-connection" []
    { success := true, result := some "ok" } (.jsError "boom") ⟨_, rfl⟩
  have h2 := C1_amended_clear_paths ⟨"default", "json"⟩ "test-connection" []
    { success := false, error := some "e" } (.jsError "boom") ⟨_, rfl⟩
  exact ⟨(h1.1 rfl).1, (h2.2.1 rfl).1, h2.2.2.1⟩

/-! ## The JSON codec round-trip (C5)

First the character-level inverses (escapes, digits), then whitespace
normalisation, then the mutual induction over the value structure. -/

theorem hexVal_hexChar (n : Nat) (h : n < 16) : hexVal (hexChar n) = some n := by
  interval_cases n <;> decide

theorem digitChar_isDig (n : Nat) (h : n < 10) :
    isDig (digitChar n) = true ∧ (digitChar n).toNat - 48 = n := by
  interval_cases n <;> exact ⟨by decide, by decide⟩

theorem pStr_escChars (cs : List Char) : ∀ rest : List Char,
    pStr (escChars cs ++ ('"' :: rest)) = some (cs, rest) := by
  induction cs with
  | nil => intro rest; simp [escChars, pStr]
  | cons c cs ih =>
    intro rest
    rw [escChars, List.append_assoc]
    by_cases h1 : c = '"'
    · subst h1
      simp [escapeChar, pStr, pEsc, unescapeChar, ih]
    · by_cases h2 : c = '\\'
      · subst h2
        simp [escapeChar, pStr, pEsc, unescapeChar, ih]
      · by_cases h3 : c = '\n'
        · subst h3
          simp [escapeChar, pStr, pEsc, unescapeChar, ih]
        · by_cases h4 : c = '\r'
          · subst h4
            simp [escapeChar, pStr, pEsc, unescapeChar, ih]
          · by_cases h5 : c = '\t'
            · subst h5
              simp [escapeChar, pStr, pEsc, unescapeChar, ih]
            · by_cases h6 : c = Char.ofNat 8
              · subst h6
                simp [escapeChar, pStr, pEsc, unescapeChar, ih]
              · by_cases h7 : c = Char.ofNat 12
                · subst h7
                  simp [escapeChar, pStr, pEsc, unescapeChar, ih]
                · by_cases h8 : c.toNat < 32
                  · have e16 : c.toNat / 16 < 16 := by omega
                    have m16 : c.toNat % 16 < 16 := Nat.mod_lt _ (by omega)
                    have harith : ((0 * 16 + 0) * 16 + c.toNat / 16) * 16
                        + c.toNat % 16 = c.toNat := by omega
                    simp only [escapeChar, h1, h2, h3, h4, h5, h6, h7, h8,
                      if_false, if_true, List.cons_append, List.nil_append]
                    simp [pStr, pEsc, hexVal_hexChar _ e16,
                      hexVal_hexChar _ m16, harith, ih,
                      show hexVal '0' = some 0 from by decide]
                    rw [show c.toNat / 16 * 16 + c.toNat % 16 = c.toNat
                      from by omega, Char.ofNat_toNat]
                  · simp only [escapeChar, h1, h2, h3, h4, h5, h6, h7, h8,
                      if_false, List.cons_append, List.nil_append]
                    simp [pStr, h1, h2, ih]

theorem pDigits_stop (acc : Nat) (rest : List Char) (h : digitSafe rest = true) :
    pDigits acc rest = (acc, rest) := by
  cases rest with
  | nil => rfl
  | cons c t =>
    have hc : isDig c = false := by simpa [digitSafe] using h
    simp [pDigits, hc]

theorem natCharsF_head (fuel n : Nat) :
    ∃ c t, natCharsF fuel n = c :: t ∧ isDig c = true := by
  induction fuel generalizing n with
  | zero =>
    exact ⟨digitChar (n % 10), [], rfl,
      (digitChar_isDig (n % 10) (Nat.mod_lt _ (by omega))).1⟩
  | succ f ih =>
    by_cases h10 : n < 10
    · exact ⟨digitChar n, [], by simp [natCharsF, h10],
        (digitChar_isDig n h10).1⟩
    · obtain ⟨c, t, hct, hc⟩ := ih (n / 10)
      exact ⟨c, t ++ [digitChar (n % 10)],
        by simp [natCharsF, h10, hct], hc⟩

theorem pDigits_natCharsF : ∀ fuel n, n ≤ fuel → ∀ (acc : Nat) (rest : List Char),
    pDigits acc (natCharsF fuel n ++ rest)
      = pDigits (acc * 10 ^ (natCharsF fuel n).length + n) rest := by
  intro fuel
  induction fuel with
  | zero =>
    intro n hn acc rest
    interval_cases n
    obtain ⟨h0, hv⟩ := digitChar_isDig 0 (by omega)
    simp [natCharsF, pDigits, h0, hv, pow_one]
  | succ f ih =>
    intro n hn acc rest
    by_cases h10 : n < 10
    · obtain ⟨hd, hv⟩ := digitChar_isDig n h10
      rw [show natCharsF (f + 1) n = [digitChar n] from by simp [natCharsF, h10]]
      simp [pDigits, hd, hv, pow_one]
    · have hlt : n / 10 ≤ f := by omega
      obtain ⟨hd, hv⟩ := digitChar_isDig (n % 10) (Nat.mod_lt _ (by omega))
      rw [show natCharsF (f + 1) n
          = natCharsF f (n / 10) ++ [digitChar (n % 10)] from by
        simp [natCharsF, h10]]
      rw [List.append_assoc]
      simp only [List.singleton_append]
      rw [ih (n / 10) hlt acc (digitChar (n % 10) :: rest)]
      rw [show pDigits (acc * 10 ^ (natCharsF f (n / 10)).length + n / 10)
            (digitChar (n % 10) :: rest)
          = pDigits ((acc * 10 ^ (natCharsF f (n / 10)).length + n / 10) * 10
            + ((digitChar (n % 10)).toNat - 48)) rest from by
        simp [pDigits, hd]]
      rw [hv]
      congr 1
      rw [List.length_append, List.length_singleton, pow_succ]
      have hmd : n / 10 * 10 + n % 10 = n := by omega
      calc (acc * 10 ^ (natCharsF f (n / 10)).length + n / 10) * 10 + n % 10
          = acc * 10 ^ (natCharsF f (n / 10)).length * 10
            + (n / 10 * 10 + n % 10) := by ring
        _ = acc * (10 ^ (natCharsF f (n / 10)).length * 10) + n := by
            rw [hmd, Nat.mul_assoc]

theorem pDigits_natChars (n : Nat) (rest : List Char) (h : digitSafe rest = true) :
    pDigits 0 (natChars n ++ rest) = (n, rest) := by
  rw [natChars, pDigits_natCharsF n n le_rfl 0 rest]
  simp [pDigits_stop _ _ h]

theorem natChars_head (n : Nat) :
    ∃ c t, natChars n = c :: t ∧ isDig c = true := natCharsF_head n n

theorem isDig_ne (c : Char) (hc : isDig c = true) :
    c ≠ '-' ∧ c ≠ '"' ∧ c ≠ '[' ∧ c ≠ '{' ∧ c ≠ 'n' ∧ c ≠ 't' ∧ c ≠ 'f'
      ∧ c ≠ ']' ∧ c ≠ '}' ∧ c ≠ ',' ∧ isWsC c = false := by
  refine ⟨?_, ?_, ?_, ?_, ?_, ?_, ?_, ?_, ?_, ?_, ?_⟩ <;>
    first
      | (intro h; subst h; exact absurd hc (by decide))
      | (by_cases h : isWsC c = true
         · exfalso
           have hws : ((c = ' ' ∨ c = '\n') ∨ c = '\t') ∨ c = '\r' := by
             simpa [isWsC] using h
           rcases hws with ((h | h) | h) | h <;>
             (subst h; exact absurd hc (by decide))
         · simpa using h)

theorem pNum_intChars (i : Int) (rest : List Char) (h : digitSafe rest = true) :
    pNum (intChars i ++ rest) = some (.num i, rest) := by
  obtain ⟨c, t, hct, hc⟩ := natChars_head i.natAbs
  have hform : natChars i.natAbs ++ rest = c :: (t ++ rest) := by
    rw [hct]; rfl
  by_cases hneg : i < 0
  · rw [show intChars i = '-' :: natChars i.natAbs from by simp [intChars, hneg],
      List.cons_append, hform]
    simp only [pNum, if_pos rfl, hc, if_true]
    rw [← hform, pDigits_natChars i.natAbs rest h]
    show some (Json.num (-(i.natAbs : Int)), rest) = some (Json.num i, rest)
    rw [show (-(i.natAbs : Int)) = i from by omega]
  · rw [show intChars i = natChars i.natAbs from by simp [intChars, hneg], hform]
    have hnm : ¬ c = '-' := (isDig_ne c hc).1
    simp only [pNum, hnm, if_false, hc, if_true]
    rw [← hform, pDigits_natChars i.natAbs rest h]
    show some (Json.num ((i.natAbs : Int)), rest) = some (Json.num i, rest)
    rw [show ((i.natAbs : Int)) = i from by omega]

theorem ws_cons_true (c : Char) (l : List Char) (h : isWsC c = true) :
    ws (c :: l) = ws l := by
  simp [ws, List.dropWhile_cons, h]

theorem ws_cons_false (c : Char) (l : List Char) (h : isWsC c = false) :
    ws (c :: l) = c :: l := by
  simp [ws, List.dropWhile_cons, h]

theorem ws_replicate (m : Nat) (l : List Char) :
    ws (List.replicate m ' ' ++ l) = ws l := by
  induction m with
  | zero => rfl
  | succ k ih =>
    rw [List.replicate_succ, List.cons_append, ws_cons_true _ _ (by decide), ih]

theorem ws_pad (d : Nat) (l : List Char) : ws (pad d ++ l) = ws l :=
  ws_replicate (2 * d) l

theorem ws_nl (l : List Char) : ws ('\n' :: l) = ws l :=
  ws_cons_true _ _ (by decide)

theorem renderVal_head (d : Nat) (v : Json) :
    ∃ c t, renderVal d v = c :: t ∧ isWsC c = false ∧ c ≠ ']' ∧ c ≠ '}' := by
  cases v with
  | null =>
    exact ⟨'n', ['u', 'l', 'l'], by simp [renderVal], by decide, by decide, by decide⟩
  | bool b =>
    cases b with
    | true =>
      exact ⟨'t', ['r', 'u', 'e'], by simp [renderVal], by decide, by decide, by decide⟩
    | false =>
      exact ⟨'f', ['a', 'l', 's', 'e'], by simp [renderVal], by decide, by decide,
        by decide⟩
  | num n =>
    by_cases hn : n < 0
    · exact ⟨'-', natChars n.natAbs, by simp [renderVal, intChars, hn], by decide,
        by decide, by decide⟩
    · obtain ⟨c, t, hct, hc⟩ := natChars_head n.natAbs
      obtain ⟨_, _, _, _, _, _, _, hbr, hbc, _, hws⟩ := isDig_ne c hc
      exact ⟨c, t, by simp [renderVal, intChars, hn, hct], hws, hbr, hbc⟩
  | str s =>
    exact ⟨'"', escChars s.data ++ ['"'], by simp [renderVal, quoteChars],
      by decide, by decide, by decide⟩
  | arr l =>
    cases l with
    | nil => exact ⟨'[', [']'], by simp [renderVal], by decide, by decide, by decide⟩
    | cons x xs =>
      exact ⟨'[', '\n' :: (pad (d + 1) ++ (renderVal (d + 1) x
          ++ (renderItems (d + 1) xs ++ '\n' :: (pad d ++ [']'])))),
        by simp [renderVal], by decide, by decide, by decide⟩
  | obj l =>
    cases l with
    | nil => exact ⟨'{', ['}'], by simp [renderVal], by decide, by decide, by decide⟩
    | cons m ms =>
      exact ⟨'{', '\n' :: (pad (d + 1) ++ (renderMember (d + 1) m
          ++ (renderMembers (d + 1) ms ++ '\n' :: (pad d ++ ['}'])))),
        by simp [renderVal], by decide, by decide, by decide⟩

theorem ws_render (d : Nat) (v : Json) (rest : List Char) :
    ws (renderVal d v ++ rest) = renderVal d v ++ rest := by
  obtain ⟨c, t, hct, hws, _, _⟩ := renderVal_head d v
  rw [hct, List.cons_append, ws_cons_false _ _ hws]

theorem digitSafe_cons (c : Char) (l : List Char) (h : isDig c = false) :
    digitSafe (c :: l) = true := by
  simp [digitSafe, h]

theorem renderMember_cons (d : Nat) (k : String) (v : Json) (X : List Char) :
    renderMember d (k, v) ++ X
      = '"' :: (escChars k.data ++ ('"' :: (':' :: ' ' :: (renderVal d v ++ X)))) := by
  simp [renderMember, quoteChars, List.cons_append, List.append_assoc]

theorem pVal_arr_go (fuel : Nat) (s r : List Char) (c2 : Char) (r2 : List Char)
    (h : ws s = '[' :: r) (h2 : ws r = c2 :: r2) (hne : ¬ c2 = ']') :
    pVal (fuel + 1) s
      = Option.map (fun p => (Json.arr p.1, p.2)) (pItems fuel (c2 :: r2)) := by
  simp [pVal, h, h2, hne]

theorem pVal_obj_go (fuel : Nat) (s r : List Char) (c2 : Char) (r2 : List Char)
    (h : ws s = '{' :: r) (h2 : ws r = c2 :: r2) (hne : ¬ c2 = '}') :
    pVal (fuel + 1) s
      = Option.map (fun p => (Json.obj p.1, p.2)) (pMembers fuel (c2 :: r2)) := by
  simp [pVal, h, h2, hne]

mutual

theorem rtVal : ∀ (v : Json) (d fuel : Nat) (s rest : List Char),
    ws s = renderVal d v ++ rest → (renderVal d v).length < fuel →
    digitSafe rest = true → pVal fuel s = some (v, rest)
  | v, d, 0, s, rest, hs, hfuel, hrest => absurd hfuel (by omega)
  | .null, d, fuel + 1, s, rest, hs, hfuel, hrest => by
    simp only [renderVal, List.cons_append, List.nil_append] at hs
    simp [pVal, hs]
  | .bool true, d, fuel + 1, s, rest, hs, hfuel, hrest => by
    simp only [renderVal, List.cons_append, List.nil_append] at hs
    simp [pVal, hs]
  | .bool false, d, fuel + 1, s, rest, hs, hfuel, hrest => by
    simp only [renderVal, List.cons_append, List.nil_append] at hs
    simp [pVal, hs]
  | .num n, d, fuel + 1, s, rest, hs, hfuel, hrest => by
    simp only [renderVal] at hs
    by_cases hn : n < 0
    · have hint : intChars n = '-' :: natChars n.natAbs := by simp [intChars, hn]
      rw [hint, List.cons_append] at hs
      simp only [pVal, hs]
      rw [if_neg (by decide), if_neg (by decide), if_neg (by decide),
        if_neg (by decide), if_neg (by decide), if_neg (by decide)]
      rw [← List.cons_append, ← hint]
      exact pNum_intChars n rest hrest
    · obtain ⟨c, t, hct, hc⟩ := natChars_head n.natAbs
      have hint : intChars n = c :: t := by simp [intChars, hn, hct]
      rw [hint, List.cons_append] at hs
      obtain ⟨hm, hq, hlb, hcb, hn2, ht2, hf2, _, _, _, _⟩ := isDig_ne c hc
      simp only [pVal, hs]
      rw [if_neg hq, if_neg hlb, if_neg hcb, if_neg hn2, if_neg ht2, if_neg hf2]
      rw [← List.cons_append, ← hint]
      exact pNum_intChars n rest hrest
  | .str s2, d, fuel + 1, s, rest, hs, hfuel, hrest => by
    simp only [renderVal, quoteChars, List.cons_append, List.append_assoc,
      List.singleton_append, List.nil_append] at hs
    simp only [pVal, hs, if_true]
    rw [pStr_escChars s2.data rest]
    rfl
  | .arr [], d, fuel + 1, s, rest, hs, hfuel, hrest => by
    simp only [renderVal, List.cons_append, List.nil_append] at hs
    simp only [pVal, hs, if_true]
    rw [ws_cons_false ']' rest (by decide)]
    simp
  | .arr (x :: xs), d, fuel + 1, s, rest, hs, hfuel, hrest => by
    have hfe : (renderVal (d + 1) x).length + (renderItems (d + 1) xs).length + 1
        < fuel := by
      simp only [renderVal, List.length_cons, List.length_append, pad,
        List.length_replicate, List.length_singleton] at hfuel
      omega
    simp only [renderVal, List.cons_append, List.append_assoc,
      List.singleton_append, List.nil_append] at hs
    obtain ⟨c, t, hct, hws, hbr, _⟩ := renderVal_head (d + 1) x
    have hcons : renderVal (d + 1) x ++ (renderItems (d + 1) xs
        ++ ('\n' :: (pad d ++ (']' :: rest))))
        = c :: (t ++ (renderItems (d + 1) xs ++ ('\n' :: (pad d ++ (']' :: rest))))) := by
      rw [hct]; rfl
    have hwsr : ws ('\n' :: (pad (d + 1) ++ (renderVal (d + 1) x
        ++ (renderItems (d + 1) xs ++ ('\n' :: (pad d ++ (']' :: rest)))))))
        = renderVal (d + 1) x ++ (renderItems (d + 1) xs
          ++ ('\n' :: (pad d ++ (']' :: rest)))) := by
      rw [ws_nl, ws_pad, ws_render]
    rw [pVal_arr_go fuel s _ c
        (t ++ (renderItems (d + 1) xs ++ ('\n' :: (pad d ++ (']' :: rest)))))
        hs (by rw [hwsr, hcons]) hbr, ← hcons,
      rtItems x xs d fuel _ rest (by rw [ws_render]) hfe hrest]
    rfl
  | .obj [], d, fuel + 1, s, rest, hs, hfuel, hrest => by
    simp only [renderVal, List.cons_append, List.nil_append] at hs
    simp only [pVal, hs, if_true]
    rw [ws_cons_false '}' rest (by decide)]
    simp
  | .obj ((k, v0) :: ms), d, fuel + 1, s, rest, hs, hfuel, hrest => by
    have hfe : (renderMember (d + 1) (k, v0)).length
        + (renderMembers (d + 1) ms).length + 1 < fuel := by
      simp only [renderVal, List.length_cons, List.length_append, pad,
        List.length_replicate, List.length_singleton] at hfuel
      omega
    simp only [renderVal, List.cons_append, List.append_assoc,
      List.singleton_append, List.nil_append] at hs
    have hcons : renderMember (d + 1) (k, v0) ++ (renderMembers (d + 1) ms
        ++ ('\n' :: (pad d ++ ('}' :: rest))))
        = '"' :: (escChars k.data ++ ('"' :: (':' :: ' ' :: (renderVal (d + 1) v0
          ++ (renderMembers (d + 1) ms ++ ('\n' :: (pad d ++ ('}' :: rest)))))))) :=
      renderMember_cons (d + 1) k v0 _
    have hwsr : ws ('\n' :: (pad (d + 1) ++ (renderMember (d + 1) (k, v0)
        ++ (renderMembers (d + 1) ms ++ ('\n' :: (pad d ++ ('}' :: rest)))))))
        = renderMember (d + 1) (k, v0) ++ (renderMembers (d + 1) ms
          ++ ('\n' :: (pad d ++ ('}' :: rest)))) := by
      rw [ws_nl, ws_pad, hcons, ws_cons_false '"' _ (by decide)]
    rw [pVal_obj_go fuel s _ '"'
        (escChars k.data ++ ('"' :: (':' :: ' ' :: (renderVal (d + 1) v0
          ++ (renderMembers (d + 1) ms ++ ('\n' :: (pad d ++ ('}' :: rest))))))))
        hs (by rw [hwsr, hcons]) (by decide), ← hcons,
      rtMembers k v0 ms d fuel _ rest
        (by rw [hcons, ws_cons_false '"' _ (by decide)]) hfe hrest]
    rfl
  termination_by v => sizeOf v

theorem rtItems : ∀ (x : Json) (xs : List Json) (d fuel : Nat) (s rest : List Char),
    ws s = renderVal (d + 1) x ++ (renderItems (d + 1) xs
      ++ ('\n' :: (pad d ++ (']' :: rest)))) →
    (renderVal (d + 1) x).length + (renderItems (d + 1) xs).length + 1 < fuel →
    digitSafe rest = true → pItems fuel s = some (x :: xs, rest)
  | x, xs, d, 0, s, rest, hs, hfuel, hrest => absurd hfuel (by omega)
  | x, [], d, fuel + 1, s, rest, hs, hfuel, hrest => by
    simp only [renderItems, List.nil_append] at hs hfuel
    have hval := rtVal x (d + 1) fuel s ('\n' :: (pad d ++ (']' :: rest))) hs
      (by omega) (digitSafe_cons _ _ (by decide))
    simp only [pItems, hval]
    rw [ws_nl, ws_pad, ws_cons_false ']' rest (by decide)]
    simp
  | x, y :: ys, d, fuel + 1, s, rest, hs, hfuel, hrest => by
    simp only [renderItems, List.cons_append, List.append_assoc] at hs hfuel
    have hval := rtVal x (d + 1) fuel s
      (',' :: ('\n' :: (pad (d + 1) ++ (renderVal (d + 1) y ++ (renderItems (d + 1) ys
        ++ ('\n' :: (pad d ++ (']' :: rest)))))))) hs
      (by simp only [List.length_cons, List.length_append] at hfuel ⊢; omega)
      (digitSafe_cons _ _ (by decide))
    have hrec := rtItems y ys d fuel
      ('\n' :: (pad (d + 1) ++ (renderVal (d + 1) y ++ (renderItems (d + 1) ys
        ++ ('\n' :: (pad d ++ (']' :: rest))))))) rest
      (by rw [ws_nl, ws_pad, ws_render])
      (by simp only [List.length_cons, List.length_append] at hfuel ⊢; omega)
      hrest
    simp only [pItems, hval]
    rw [ws_cons_false ',' _ (by decide)]
    simp [hrec]
  termination_by x xs => sizeOf x + sizeOf xs

theorem rtMembers : ∀ (k : String) (v0 : Json) (ms : List (String × Json))
    (d fuel : Nat) (s rest : List Char),
    ws s = renderMember (d + 1) (k, v0) ++ (renderMembers (d + 1) ms
      ++ ('\n' :: (pad d ++ ('}' :: rest)))) →
    (renderMember (d + 1) (k, v0)).length + (renderMembers (d + 1) ms).length + 1
      < fuel →
    digitSafe rest = true → pMembers fuel s = some ((k, v0) :: ms, rest)
  | k, v0, ms, d, 0, s, rest, hs, hfuel, hrest => absurd hfuel (by omega)
  | k, v0, [], d, fuel + 1, s, rest, hs, hfuel, hrest => by
    simp only [renderMembers, List.nil_append] at hs hfuel
    rw [renderMember_cons] at hs
    have hval := rtVal v0 (d + 1) fuel
      (' ' :: (renderVal (d + 1) v0 ++ ('\n' :: (pad d ++ ('}' :: rest)))))
      ('\n' :: (pad d ++ ('}' :: rest)))
      (by rw [ws_cons_true ' ' _ (by decide), ws_render])
      (by simp only [renderMember, quoteChars, List.length_append, List.length_cons]
            at hfuel
          omega)
      (digitSafe_cons _ _ (by decide))
    simp [pMembers, hs, pStr_escChars, hval, ws_cons_false, ws_nl, ws_pad, isWsC]
  | k, v0, (k2, v2) :: ms2, d, fuel + 1, s, rest, hs, hfuel, hrest => by
    simp only [renderMembers, List.cons_append, List.append_assoc] at hs hfuel
    rw [renderMember_cons] at hs
    have hval := rtVal v0 (d + 1) fuel
      (' ' :: (renderVal (d + 1) v0 ++ (',' :: ('\n' :: (pad (d + 1)
        ++ (renderMember (d + 1) (k2, v2) ++ (renderMembers (d + 1) ms2
          ++ ('\n' :: (pad d ++ ('}' :: rest))))))))))
      (',' :: ('\n' :: (pad (d + 1) ++ (renderMember (d + 1) (k2, v2)
        ++ (renderMembers (d + 1) ms2 ++ ('\n' :: (pad d ++ ('}' :: rest))))))))
      (by rw [ws_cons_true ' ' _ (by decide), ws_render])
      (by simp only [renderMember, quoteChars, List.length_append, List.length_cons]
            at hfuel
          omega)
      (digitSafe_cons _ _ (by decide))
    have hrec := rtMembers k2 v2 ms2 d fuel
      ('\n' :: (pad (d + 1) ++ (renderMember (d + 1) (k2, v2)
        ++ (renderMembers (d + 1) ms2 ++ ('\n' :: (pad d ++ ('}' :: rest))))))) rest
      (by rw [ws_nl, ws_pad, renderMember_cons, ws_cons_false '"' _ (by decide)])
      (by simp only [renderMember, quoteChars, List.length_append, List.length_cons]
            at hfuel ⊢
          omega)
      hrest
    simp [pMembers, hs, pStr_escChars, hval, hrec, ws_cons_false, ws_nl, ws_pad,
      isWsC]
  termination_by _k v0 ms => 1 + sizeOf v0 + sizeOf ms

end

/-- C5: the codec round-trip — parsing the output of
`formatAsJson` (= `JSON.stringify(data, null, 2)`) recovers the payload
structurally, object member order included, for every payload of the
value model; `formatResult` with format `"json"` renders through
exactly that stringification; and the non-empty array/object renderings
indent each entry by `2 * (depth + 1)` spaces with members emitted in
the payload's own order. -/
theorem C5_json_roundtrip :
    (∀ v : Json, jsonParse (jsonStringify2 v) = some v) ∧
    (∀ enc (v : Json),
      SentryUtil.formatResult enc (some v) "json" = some (jsonStringify2 v)) ∧
    (∀ d x xs, renderVal d (.arr (x :: xs))
      = '[' :: '\n' :: (List.replicate (2 * (d + 1)) ' ' ++ (renderVal (d + 1) x
        ++ (renderItems (d + 1) xs
          ++ '\n' :: (List.replicate (2 * d) ' ' ++ [']']))))) ∧
    (∀ d k v ms, renderVal d (.obj ((k, v) :: ms))
      = '{' :: '\n' :: (List.replicate (2 * (d + 1)) ' ' ++ ((quoteChars k
        ++ (':' :: ' ' :: renderVal (d + 1) v))
        ++ (renderMembers (d + 1) ms
          ++ '\n' :: (List.replicate (2 * d) ' ' ++ ['}']))))) := by
  refine ⟨?_, ?_, ?_, ?_⟩
  · intro v
    have h0 : ws (renderVal 0 v) = renderVal 0 v := by
      have h1 := ws_render 0 v []
      rwa [List.append_nil] at h1
    have h := rtVal v 0 ((renderVal 0 v).length + 1) (renderVal 0 v) []
      (by rw [h0, List.append_nil]) (by omega) rfl
    have hdata : (String.mk (renderVal 0 v)).data = renderVal 0 v := rfl
    simp only [jsonParse, jsonStringify2, hdata, h]
    simp [ws]
  · intro enc v
    simp [SentryUtil.formatResult, SentryUtil.formatAsJson]
  · intro d x xs
    simp [renderVal, pad]
  · intro d k v ms
    simp [renderVal, renderMember, pad]

end SentryCLI
